import Mathlib

/-!
Verification of the gccxml frontend of cwrap
(`src/cwrap/frontends/gccxml/gccxml_parser.py`).

The module is Python 2.  It is embedded shallowly:

* Python dicts are association lists.  Lookup and key-replacing insertion
  have exactly the observable dict semantics; a CPython 2 dict however does
  NOT promise any iteration order, so wherever the source iterates a dict
  (`self.all.items()` / `self.all.values()` in `get_result`) the model takes
  the iteration snapshot as an explicit argument, admissible iff it is a
  permutation of the dict's contents.
* The `c_ast` node classes are not part of `src/`; their shape is taken
  from the way `gccxml_parser.py` constructs and mutates them, and, where
  noted, from the spec (they are pure data carriers).
* The fixup pass mutates nodes in place, producing a cyclic object graph.
  Following the registry structure of the source (and §9 of the spec, which
  describes the graph as an arena indexed by ids), object identity is
  modelled by the registry key: a resolved reference field keeps the id it
  was successfully looked up with, and dereferencing is registry lookup.
  `fixup` therefore performs exactly the lookups the source performs and
  fails exactly where the source raises, while the node payloads stay
  id-addressed.
* Python exceptions are the error side of `Except`.
-/

deriving instance DecidableEq for Except

namespace Cwrap

/-- Registry keys: `self.all[_id] = result` uses the xml id string, and
`self.all[id(result)] = result` uses the CPython address of the node
(an int, modelled by a counter).  A c_ast node object is never a key. -/
inductive Key where
  | kstr (s : String)
  | kaddr (n : Nat)
deriving DecidableEq, Repr

/-- Python exceptions raised by the embedded code.
`missingReferenceError` is modelled from the spec: §4.3 and §7 of the spec
name a `MissingReferenceError` for a fixup lookup miss; the source never
defines or raises it (it raises the built-in `KeyError`).  It is included
so that statements can distinguish the error the spec promises from the
error the code produces. -/
inductive PyErr where
  | keyError (k : Key)
  | keyErrorNode
  | valueError (msg : String)
  | typeError (msg : String)
  | attributeError (msg : String)
  | indexError
  | missingReferenceError (ref : String) (owner : String)
deriving DecidableEq, Repr

/-- Is the error the `MissingReferenceError` the spec names? -/
def PyErr.isMissingRef : PyErr → Bool
  | .missingReferenceError _ _ => true
  | _ => false

/-! ### Python string primitives -/

/-- The characters `str.split` treats as whitespace. -/
def pyIsSpace (c : Char) : Bool :=
  c = ' ' || c = '\t' || c = '\n' || c = '\x0d' || c = '\x0b' || c = '\x0c'

/-- Split a character list at every character satisfying `p` (the string
primitives below are implemented over `List Char` by structural recursion
so that concrete runs reduce inside the kernel). -/
def splitPredAux (p : Char → Bool) : List Char → List Char → List (List Char)
  | [], acc => [acc.reverse]
  | d :: rest, acc =>
      if p d then acc.reverse :: splitPredAux p rest []
      else splitPredAux p rest (d :: acc)

/-- Python `s.split(c)` for a one-character separator. -/
def splitChar (c : Char) (s : String) : List String :=
  (splitPredAux (fun d => d = c) s.toList []).map String.mk

/-- Python `s.split()` (no arguments): split on whitespace runs, no empty
fields. -/
def pySplitWS (s : String) : List String :=
  ((splitPredAux pyIsSpace s.toList []).map String.mk).filter (fun t => t ≠ "")

/-- Python `s.split(None, 1)`: leading whitespace dropped, first token,
then the remainder with its leading whitespace dropped; a whitespace-only
remainder is dropped altogether. -/
def pySplitNone1 (s : String) : List String :=
  let cs := s.toList.dropWhile pyIsSpace
  if cs.isEmpty then []
  else
    let tok := cs.takeWhile (fun c => !pyIsSpace c)
    let rest := (cs.dropWhile (fun c => !pyIsSpace c)).dropWhile pyIsSpace
    if rest.isEmpty then [String.mk tok] else [String.mk tok, String.mk rest]

/-- Rejoin split fields with the one-character separator. -/
def charIntercalate (sep : List Char) : List (List Char) → List Char
  | [] => []
  | [x] => x
  | x :: rest => x ++ sep ++ charIntercalate sep rest

/-- Python `s.split(c, 1)` for a one-character separator: at most one
split, at the first occurrence. -/
def pySplit1 (c : Char) (s : String) : List String :=
  match splitChar c s with
  | [] => [s]
  | [x] => [x]
  | x :: rest =>
      [x, String.mk (charIntercalate [c] (rest.map String.toList))]

/-- Python `s.splitlines()` restricted to `\n` separators (the only ones
appearing in the dump sections): split at every newline, but without a
final empty field produced by a trailing newline. -/
def pySplitlines (s : String) : List String :=
  let parts := splitChar '\n' s
  match parts.getLast? with
  | some "" => parts.dropLast
  | _ => parts

/-- Python `s.rstrip('lu')`. -/
def pyRstripLU (s : String) : String :=
  String.mk ((s.toList.reverse.dropWhile (fun c => c = 'l' || c = 'u')).reverse)

/-- Python `s.replace(pat, rep)` for a nonempty pattern: replace every
non-overlapping occurrence, scanning left to right.  Written with fuel so
the recursion is structural; `length + 1` fuel always suffices because
every step consumes at least one character (the source only ever calls
this with nonempty patterns, for which the fuel guard never bites). -/
def replaceFuel (pat rep : List Char) : Nat → List Char → List Char
  | 0, l => l
  | _ + 1, [] => []
  | fuel + 1, d :: rest =>
      if pat.isPrefixOf (d :: rest) ∧ pat ≠ [] then
        rep ++ replaceFuel pat rep fuel ((d :: rest).drop pat.length)
      else d :: replaceFuel pat rep fuel rest

/-- Python `s.replace(pat, rep)` (nonempty `pat`). -/
def pyReplace (s pat rep : String) : String :=
  String.mk (replaceFuel pat.toList rep.toList (s.toList.length + 1) s.toList)

/-- Value of a nonempty all-digit character list. -/
def digitsVal (cs : List Char) : Nat :=
  cs.foldl (fun a c => a * 10 + (c.toNat - 48)) 0

/-- Python `int(s)`: optional surrounding whitespace, optional sign, at
least one decimal digit; anything else raises `ValueError`. -/
def pyInt (s : String) : Except PyErr Int :=
  let cs := s.toList.dropWhile pyIsSpace
  let cs := (cs.reverse.dropWhile pyIsSpace).reverse
  match cs with
  | '-' :: rest =>
      if rest ≠ [] && rest.all Char.isDigit then .ok (-(digitsVal rest : Int))
      else .error (.valueError s)
  | '+' :: rest =>
      if rest ≠ [] && rest.all Char.isDigit then .ok (digitsVal rest : Int)
      else .error (.valueError s)
  | rest =>
      if rest ≠ [] && rest.all Char.isDigit then .ok (digitsVal rest : Int)
      else .error (.valueError s)

/-! ### Association-list model of Python dicts -/

section Assoc

variable {κ α : Type} [DecidableEq κ]

/-- `d[k]` as an `Option`. -/
def alookup : List (κ × α) → κ → Option α
  | [], _ => none
  | (k', v) :: rest, k => if k' = k then some v else alookup rest k

/-- `d[k] = v`: replace in place if the key is present (CPython keeps the
entry's slot), append otherwise. -/
def aput : List (κ × α) → κ → α → List (κ × α)
  | [], k, v => [(k, v)]
  | (k', v') :: rest, k, v =>
      if k' = k then (k, v) :: rest else (k', v') :: aput rest k v

end Assoc

/-! ### The c_ast node model

`c_ast.py` is not under `src/`; each constructor below carries exactly the
fields `gccxml_parser.py` passes to it (in source order), plus, for the
children-bearing kinds, the child list the spec (§4.1) says `add_argument`
/ `add_value` appends to.  Cross references are id strings, resolved
through the registry (see the header comment). -/

/-- A function argument: `c_ast.Argument(typ, name)`. -/
structure PyArg where
  typ : String
  name : Option String
deriving DecidableEq, Repr

/-- An alias target after one-hop resolution: a node found in the
name→node namespace (identified by its registry key), or another alias
just parsed (identified by its name). -/
inductive AliasTarget where
  | nsNode (k : Key)
  | aliasNode (name : String)
deriving DecidableEq, Repr

inductive CNode where
  | Namespace (name : String) (members : List String)
  | File (name : String)
  | Variable (name : String) (typ : String) (context : String)
      (init : Option String)
  | Typedef (name : String) (typ : String) (context : String)
  | FundamentalType (name : String) (size : String) (align : String)
  | PointerType (typ : String) (size : String) (align : String)
  | ArrayType (typ : String) (min : Int) (max : Int)
  | CvQualifiedType (typ : String) (const : Option String)
      (volatile : Option String)
  | Function (name : String) (returns : String) (context : String)
      (attributes : List String) (externAttr : Option String)
      (arguments : List PyArg)
  | FunctionType (returns : String) (attributes : List String)
      (arguments : List PyArg)
  | OperatorFunction (name : String) (returns : String) (context : String)
      (attributes : List String) (externAttr : Option String)
      (arguments : List PyArg)
  | Enumeration (name : Option String) (size : String) (align : String)
      (values : List (String × String))
  | Struct (name : String) (align : String) (members : List String)
      (context : String) (bases : List String) (size : Option String)
  | Union (name : String) (align : String) (members : List String)
      (context : String) (bases : List String) (size : Option String)
  | Field (name : String) (typ : String) (context : String)
      (bits : Option String) (offset : Option String)
  | Macro (name : String) (args : String) (body : String)
  | Alias (name : String) (value : String) (typ : Option AliasTarget)
  | Ignored (name : String)
deriving DecidableEq, Repr

/-- `getattr(node, 'name', None)`, distinguishing a missing attribute
(kinds whose class has no `name`) from an attribute holding `None`
(an anonymous `Enumeration`). -/
def nameAttr? : CNode → Option (Option String)
  | .Namespace n _ => some (some n)
  | .File n => some (some n)
  | .Variable n _ _ _ => some (some n)
  | .Typedef n _ _ => some (some n)
  | .FundamentalType n _ _ => some (some n)
  | .PointerType _ _ _ => none
  | .ArrayType _ _ _ => none
  | .CvQualifiedType _ _ _ => none
  | .Function n _ _ _ _ _ => some (some n)
  | .FunctionType _ _ _ => none
  | .OperatorFunction n _ _ _ _ _ => some (some n)
  | .Enumeration n _ _ _ => some n
  | .Struct n _ _ _ _ _ => some (some n)
  | .Union n _ _ _ _ _ => some (some n)
  | .Field n _ _ _ _ => some (some n)
  | .Macro n _ _ => some (some n)
  | .Alias n _ _ => some (some n)
  | .Ignored n => some (some n)

/-- A node's `location` attribute: the raw `"fileid:line"` string set by
`start_element`, or the `(filename, line)` pair the fixup pass rewrites
it to. -/
inductive PyLoc where
  | raw (s : String)
  | res (file : Option String) (line : Int)
deriving DecidableEq, Repr

/-- A registered node: the c_ast object together with its optional
`location` attribute. -/
structure RNode where
  node : CNode
  location : Option PyLoc
deriving DecidableEq, Repr

/-- The id registry `self.all`, in the dict's (arbitrary) internal order. -/
abbrev Registry := List (Key × RNode)

/-- Keys of a registry. -/
def regKeys (r : Registry) : List Key := r.map (fun e => e.1)

/-- Forget locations: the registry's id→node content. -/
def stripLoc (r : Registry) : List (Key × CNode) :=
  r.map (fun e => (e.1, e.2.node))

/-! ### Node builders (the `visit_*` handlers) -/

/-- The xml attribute dict of one element. -/
abbrev Attrs := List (String × String)

/-- `attrs['k']`: raises `KeyError` when absent. -/
def attrsReq (attrs : Attrs) (k : String) : Except PyErr String :=
  match alookup attrs k with
  | some v => .ok v
  | none => .error (.keyError (.kstr k))

/-- `attrs.get('k')`. -/
def attrsGet? (attrs : Attrs) (k : String) : Option String :=
  alookup attrs k

/-- `attrs.get('k', d)`. -/
def attrsGetD (attrs : Attrs) (k d : String) : String :=
  (alookup attrs k).getD d

/-- `MAKE_NAME`: mangled C++ name to python identifier.  `name[0]` on an
empty string raises `IndexError`, as in Python. -/
def MAKE_NAME (name : String) : Except PyErr String :=
  let n := pyReplace (pyReplace name "$" "DOLLAR") "." "DOT"
  if "__".toList.isPrefixOf n.toList then .ok ("_X" ++ n)
  else
    match n.toList with
    | [] => .error .indexError
    | c :: _ =>
        if "01234567879".toList.contains c then .ok ("_" ++ n) else .ok n

/-- `WORDPAT.match(name)`: `^[a-zA-Z_][a-zA-Z0-9_]*$`. -/
def wordpatMatch (s : String) : Bool :=
  match s.toList with
  | [] => false
  | c :: rest =>
      (c.isAlpha || c = '_') && rest.all (fun d => d.isAlphanum || d = '_')

/-- `CHECK_NAME`: the name if it is a valid identifier, else `None`. -/
def CHECK_NAME (name : String) : Option String :=
  if wordpatMatch name then some name else none

def visit_Namespace (attrs : Attrs) : Except PyErr CNode := do
  let name ← attrsReq attrs "name"
  let members ← attrsReq attrs "members"
  pure (.Namespace name (pySplitWS members))

def visit_File (attrs : Attrs) : Except PyErr CNode := do
  let name ← attrsReq attrs "name"
  pure (.File name)

def visit_Variable (attrs : Attrs) : Except PyErr CNode := do
  let name ← attrsReq attrs "name"
  let typ ← attrsReq attrs "type"
  let context ← attrsReq attrs "context"
  pure (.Variable name typ context (attrsGet? attrs "init"))

def visit_Typedef (attrs : Attrs) : Except PyErr CNode := do
  let name ← attrsReq attrs "name"
  let typ ← attrsReq attrs "type"
  let context ← attrsReq attrs "context"
  pure (.Typedef name typ context)

def visit_FundamentalType (attrs : Attrs) : Except PyErr CNode := do
  let name ← attrsReq attrs "name"
  let size ← if name = "void" then pure "" else attrsReq attrs "size"
  let align ← attrsReq attrs "align"
  pure (.FundamentalType name size align)

/-- Also used for `ReferenceType` (`visit_ReferenceType = visit_PointerType`
in the source, both building `c_ast.PointerType`). -/
def visit_PointerType (attrs : Attrs) : Except PyErr CNode := do
  let typ ← attrsReq attrs "type"
  let size ← attrsReq attrs "size"
  let align ← attrsReq attrs "align"
  pure (.PointerType typ size align)

def visit_ArrayType (attrs : Attrs) : Except PyErr CNode := do
  let typ ← attrsReq attrs "type"
  let mn ← attrsReq attrs "min"
  let mx ← attrsReq attrs "max"
  let mx := if mx = "ffffffffffffffff" then "-1" else mx
  let mx := if mx = "" then "-1" else mx
  let mnv ← pyInt (pyRstripLU mn)
  let mxv ← pyInt (pyRstripLU mx)
  pure (.ArrayType typ mnv mxv)

def visit_CvQualifiedType (attrs : Attrs) : Except PyErr CNode := do
  let typ ← attrsReq attrs "type"
  pure (.CvQualifiedType typ (attrsGet? attrs "const") (attrsGet? attrs "volatile"))

def visit_Function (attrs : Attrs) : Except PyErr CNode := do
  let name ← attrsReq attrs "name"
  let returns ← attrsReq attrs "returns"
  let context ← attrsReq attrs "context"
  let attributes := pySplitWS (attrsGetD attrs "attributes" "")
  pure (.Function name returns context attributes (attrsGet? attrs "extern") [])

def visit_FunctionType (attrs : Attrs) : Except PyErr CNode := do
  let returns ← attrsReq attrs "returns"
  let attributes := pySplitWS (attrsGetD attrs "attributes" "")
  pure (.FunctionType returns attributes [])

def visit_OperatorFunction (attrs : Attrs) : Except PyErr CNode := do
  let name ← attrsReq attrs "name"
  let returns ← attrsReq attrs "returns"
  let context ← attrsReq attrs "context"
  let attributes := pySplitWS (attrsGetD attrs "attributes" "")
  pure (.OperatorFunction name returns context attributes (attrsGet? attrs "extern") [])

def visit_Enumeration (attrs : Attrs) : Except PyErr CNode := do
  let rawName ← attrsReq attrs "name"
  let size ← attrsReq attrs "size"
  let align ← attrsReq attrs "align"
  pure (.Enumeration (CHECK_NAME rawName) size align [])

def visit_Struct (attrs : Attrs) : Except PyErr CNode := do
  let name ← match attrsGet? attrs "name" with
    | some n => pure n
    | none => do MAKE_NAME (← attrsReq attrs "mangled")
  let bases := pySplitWS (attrsGetD attrs "bases" "")
  let members := pySplitWS (attrsGetD attrs "members" "")
  let context ← attrsReq attrs "context"
  let align ← attrsReq attrs "align"
  pure (.Struct name align members context bases (attrsGet? attrs "size"))

/-- `visit_Class` builds a `c_ast.Struct` as well; it is the only handler
that rewrites base specifiers, removing every occurrence of the substring
`"protected:"`. -/
def visit_Class (attrs : Attrs) : Except PyErr CNode := do
  let name ← match attrsGet? attrs "name" with
    | some n => pure n
    | none => do MAKE_NAME (← attrsReq attrs "mangled")
  let bases := pySplitWS (attrsGetD attrs "bases" "")
  let bases := bases.map (fun b => pyReplace b "protected:" "")
  let members := pySplitWS (attrsGetD attrs "members" "")
  let context ← attrsReq attrs "context"
  let align ← attrsReq attrs "align"
  pure (.Struct name align members context bases (attrsGet? attrs "size"))

def visit_Union (attrs : Attrs) : Except PyErr CNode := do
  let name ← match attrsGet? attrs "name" with
    | some n => pure n
    | none => do MAKE_NAME (← attrsReq attrs "mangled")
  let bases := pySplitWS (attrsGetD attrs "bases" "")
  let members := pySplitWS (attrsGetD attrs "members" "")
  let context ← attrsReq attrs "context"
  let align ← attrsReq attrs "align"
  pure (.Union name align members context bases (attrsGet? attrs "size"))

def visit_Field (attrs : Attrs) : Except PyErr CNode := do
  let name ← attrsReq attrs "name"
  let typ ← attrsReq attrs "type"
  let context ← attrsReq attrs "context"
  pure (.Field name typ context (attrsGet? attrs "bits") (attrsGet? attrs "offset"))

/-- `visit_Ignored`, shared by Method, Constructor, Destructor,
OperatorMethod, Base, Converter, MethodType and OffsetType elements. -/
def visit_Ignored (attrs : Attrs) : Except PyErr CNode := do
  let name ← match attrsGet? attrs "name" with
    | some n => pure n
    | none =>
        match attrsGet? attrs "mangled" with
        | some m => MAKE_NAME m
        | none => pure "UNDEFINED"
  pure (.Ignored name)

/-! ### The streaming parser -/

/-- A chunk of accumulated character data.  `visit_Characters` normally
appends strings; an element literally tagged `Characters` would make
`start_element` call the same method with the attribute dict, appending a
non-string (`obj`), which `''.join` later rejects with `TypeError`. -/
inductive CData where
  | s (text : String)
  | obj
deriving DecidableEq, Repr

/-- `''.join(chunks)`. -/
def joinCData (chunks : List CData) : Except PyErr String := do
  let parts ← chunks.mapM (fun c => match c with
    | .s t => Except.ok t
    | .obj => Except.error (.typeError "join"))
  pure (parts.foldl (fun a b => a ++ b) "")

/-- The parser object state (`GCCXMLParser.__init__`).  `context` holds
the registry keys of the pushed parent nodes (object identity = key);
`cdataSec` is the name of the dump section `self.cdata` currently aliases,
`nextAddr` models the freshness of `id(result)` keys, and `diags` collects
the non-fatal diagnostics the source prints. -/
structure PState where
  context : List (Option Key)
  all : Registry
  cpp_data : List (String × List CData)
  cdataSec : Option String
  cvs_revision : Option (List Int)
  nextAddr : Nat
  diags : List String
deriving DecidableEq, Repr

def initPState : PState :=
  { context := [], all := [], cpp_data := [], cdataSec := none,
    cvs_revision := none, nextAddr := 0, diags := [] }

/-- `has_subelements`. -/
def has_subelements : List String :=
  ["Enumeration", "Function", "FunctionType", "OperatorFunction",
   "Method", "Constructor", "Destructor", "OperatorMethod"]

/-- Every element name `getattr(self, 'visit_' + name)` finds a method
for. -/
def handledNames : List String :=
  ["Ignored", "Method", "Constructor", "Destructor", "OperatorMethod",
   "Base", "Converter", "MethodType", "Ellipsis", "OffsetType",
   "GCC_XML", "Characters", "CPP_DUMP",
   "Namespace", "File", "Variable", "Typedef", "FundamentalType",
   "PointerType", "ReferenceType", "ArrayType", "CvQualifiedType",
   "Function", "FunctionType", "OperatorFunction", "Argument",
   "Enumeration", "EnumValue", "Struct", "Class", "Union", "Field"]

/-- `unhandled_element`: prints one diagnostic line and returns `None`
(no node is synthesized). -/
def unhandled_element (st : PState) (name : String) :
    Option CNode × PState :=
  (none, { st with diags := st.diags ++ ["Unhandled element `" ++ name ++ "`."] })

/-- `parent.add_argument(arg)` on the node registered at `pk`.
Modelled from the spec: `c_ast` is not under `src/`; §4.1 says the child
handler calls an explicit ordered "append child" operation on the parent.
Kinds that take no arguments absorb the call (the spec's `Ignored`
placeholder "absorbs kinds whose internals are irrelevant"). -/
def addArgument (all : Registry) (pk : Key) (arg : PyArg) : Registry :=
  match alookup all pk with
  | none => all
  | some rn =>
      let node' := match rn.node with
        | .Function n r c a e args => CNode.Function n r c a e (args ++ [arg])
        | .FunctionType r a args => CNode.FunctionType r a (args ++ [arg])
        | .OperatorFunction n r c a e args =>
            CNode.OperatorFunction n r c a e (args ++ [arg])
        | other => other
      aput all pk { rn with node := node' }

/-- `parent.add_value(val)`, analogously (spec §4.1: enum values are
appended to the enclosing `Enumeration` in stream order). -/
def addValue (all : Registry) (pk : Key) (v : String × String) : Registry :=
  match alookup all pk with
  | none => all
  | some rn =>
      let node' := match rn.node with
        | .Enumeration n s a vs => CNode.Enumeration n s a (vs ++ [v])
        | other => other
      aput all pk { rn with node := node' }

/-- `visit_Characters`: append to the active dump section, if any. -/
def visitCharacters (st : PState) (chunk : CData) : PState :=
  match st.cdataSec with
  | none => st
  | some sec =>
      match alookup st.cpp_data sec with
      | none => st
      | some chunks =>
          { st with cpp_data := aput st.cpp_data sec (chunks ++ [chunk]) }

/-- Dispatch of `start_element` to the matching `visit_` method.  Returns
the handler's result (`None` for the stateful handlers) and the possibly
updated parser state. -/
def visitDispatch (name : String) (attrs : Attrs) (st : PState) :
    Except PyErr (Option CNode × PState) :=
  match name with
  | "Namespace" => do pure (some (← visit_Namespace attrs), st)
  | "File" => do pure (some (← visit_File attrs), st)
  | "Variable" => do pure (some (← visit_Variable attrs), st)
  | "Typedef" => do pure (some (← visit_Typedef attrs), st)
  | "FundamentalType" => do pure (some (← visit_FundamentalType attrs), st)
  | "PointerType" => do pure (some (← visit_PointerType attrs), st)
  | "ReferenceType" => do pure (some (← visit_PointerType attrs), st)
  | "ArrayType" => do pure (some (← visit_ArrayType attrs), st)
  | "CvQualifiedType" => do pure (some (← visit_CvQualifiedType attrs), st)
  | "Function" => do pure (some (← visit_Function attrs), st)
  | "FunctionType" => do pure (some (← visit_FunctionType attrs), st)
  | "OperatorFunction" => do pure (some (← visit_OperatorFunction attrs), st)
  | "Enumeration" => do pure (some (← visit_Enumeration attrs), st)
  | "Struct" => do pure (some (← visit_Struct attrs), st)
  | "Class" => do pure (some (← visit_Class attrs), st)
  | "Union" => do pure (some (← visit_Union attrs), st)
  | "Field" => do pure (some (← visit_Field attrs), st)
  | "Ignored" => do pure (some (← visit_Ignored attrs), st)
  | "Method" => do pure (some (← visit_Ignored attrs), st)
  | "Constructor" => do pure (some (← visit_Ignored attrs), st)
  | "Destructor" => do pure (some (← visit_Ignored attrs), st)
  | "OperatorMethod" => do pure (some (← visit_Ignored attrs), st)
  | "Base" => do pure (some (← visit_Ignored attrs), st)
  | "Converter" => do pure (some (← visit_Ignored attrs), st)
  | "MethodType" => do pure (some (← visit_Ignored attrs), st)
  | "OffsetType" => do pure (some (← visit_Ignored attrs), st)
  | "Ellipsis" => .ok (none, st)
  | "GCC_XML" => do
      let rev ← attrsReq attrs "cvs_revision"
      let parts ← (splitChar '.' rev).mapM pyInt
      pure (none, { st with cvs_revision := some parts })
  | "CPP_DUMP" => do
      let secName ← attrsReq attrs "name"
      pure (none, { st with cpp_data := aput st.cpp_data secName [],
                            cdataSec := some secName })
  | "Characters" =>
      -- an element tagged `Characters` reaches `visit_Characters(attrs)`;
      -- the attribute dict (a non-string) is appended to the live section
      .ok (none, visitCharacters st .obj)
  | "Argument" => do
      match st.context.getLast? with
      | none => Except.error .indexError   -- self.context[-1] on an empty stack
      | some none => pure (none, st)       -- `if parent is not None` guard
      | some (some pk) => do
          let typ ← attrsReq attrs "type"
          let arg : PyArg := { typ := typ, name := attrsGet? attrs "name" }
          pure (none, { st with all := addArgument st.all pk arg })
  | "EnumValue" => do
      match st.context.getLast? with
      | none => Except.error .indexError
      | some none => pure (none, st)
      | some (some pk) => do
          let n ← attrsReq attrs "name"
          let v ← attrsReq attrs "init"
          pure (none, { st with all := addValue st.all pk (n, v) })
  | _ => .ok (unhandled_element st name)

/-- `start_element`: dispatch, then record the node under its id (or a
fresh address key), then push children-bearing elements onto the context
stack. -/
def start_element (st : PState) (name : String) (attrs : Attrs) :
    Except PyErr PState := do
  let (result, st) ←
    if handledNames.contains name then visitDispatch name attrs st
    else pure (unhandled_element st name)
  let (st, resultKey) ←
    match result with
    | none => pure (st, (none : Option Key))
    | some node => do
        let rn : RNode := { node := node,
                            location := (attrsGet? attrs "location").map .raw }
        match attrsGet? attrs "id" with
        | some i =>
            pure ({ st with all := aput st.all (.kstr i) rn },
                  some (Key.kstr i))
        | none =>
            pure ({ st with all := aput st.all (.kaddr st.nextAddr) rn,
                            nextAddr := st.nextAddr + 1 },
                  some (Key.kaddr st.nextAddr))
  if has_subelements.contains name then
    pure { st with context := st.context ++ [resultKey] }
  else
    pure st

/-- `end_element`: pop children-bearing elements, stop cdata capture. -/
def end_element (st : PState) (name : String) : Except PyErr PState := do
  let st ←
    if has_subelements.contains name then
      match st.context with
      | [] => Except.error .indexError   -- list.pop() on an empty stack
      | _ => pure { st with context := st.context.dropLast }
    else pure st
  pure { st with cdataSec := none }

/-- One event of the xml stream: a start tag with its attributes, or an
end tag together with the element's text (`node.text`). -/
inductive XEvent where
  | start (tag : String) (attrs : Attrs)
  | stop (tag : String) (text : Option String)
deriving DecidableEq, Repr

/-- `GCCXMLParser.parse`: fold the event stream.  On an end event the
element's text, when non-empty, is fed to `visit_Characters` before
`end_element` runs. -/
def parseEvents (evs : List XEvent) : Except PyErr PState :=
  evs.foldlM (fun st ev =>
    match ev with
    | .start tag attrs => start_element st tag attrs
    | .stop tag text =>
        let st := match text with
          | some t => if t ≠ "" then visitCharacters st (.s t) else st
          | none => st
        end_element st tag) initPState

/-! ### Fixup resolver and result assembly (`get_result` and helpers) -/

/-- The reference-id fields each `_fixup_*` method dereferences, in the
order the method reads them; `none` when the node's class has no
`_fixup_` method at all (only `c_ast.Alias` among the classes the parser
ever constructs: there is no `_fixup_Alias`).  In the arena model a
successful dereference keeps the id as the reference handle, so the fixup
methods reduce to these lookups plus the location rewrite. -/
def fixupRefIds : CNode → Option (List String)
  | .Namespace _ ms => some ms
  | .File _ => some []
  | .Variable _ t c _ => some [t, c]
  | .Typedef _ t c => some [t, c]
  | .FundamentalType _ _ _ => some []
  | .PointerType t _ _ => some [t]
  | .ArrayType t _ _ => some [t]
  | .CvQualifiedType t _ _ => some [t]
  | .Function _ r c _ _ args => some ([r, c] ++ args.map (fun a => a.typ))
  | .FunctionType r _ args => some ([r] ++ args.map (fun a => a.typ))
  | .OperatorFunction _ r c _ _ args => some ([r, c] ++ args.map (fun a => a.typ))
  | .Enumeration _ _ _ _ => some []
  | .Struct _ _ ms c bs _ => some (ms ++ bs ++ [c])
  | .Union _ _ ms c bs _ => some (ms ++ bs ++ [c])
  | .Field _ t c _ _ => some [t, c]
  | .Macro _ _ _ => some []
  | .Alias _ _ _ => none
  | .Ignored _ => some []

/-- Does the node's class have a `_fixup_` method? -/
def hasFixup (n : CNode) : Bool := (fixupRefIds n).isSome

/-- The location rewrite at the top of the `get_result` loop:
`fil, line = location.split(':')`, `self.all[fil].name`, `int(line)`. -/
def fixupLocation (cur : Registry) (loc : Option PyLoc) :
    Except PyErr (Option PyLoc) :=
  match loc with
  | none => .ok none
  | some (.res f l) => .ok (some (.res f l))
  | some (.raw s) =>
      match splitChar ':' s with
      | [fil, line] => do
          let rn ← match alookup cur (.kstr fil) with
            | some rn => Except.ok rn
            | none => Except.error (.keyError (.kstr fil))
          let nm ← match nameAttr? rn.node with
            | some nm => Except.ok nm
            | none => Except.error (.attributeError "name")
          let l ← pyInt line
          pure (some (.res nm l))
      | _ => .error (.valueError "unpack")

/-- Run the lookups of one `_fixup_*` method: the first id absent from the
registry raises `KeyError` on that id. -/
def fixupRefsCheck (cur : Registry) : List String → Except PyErr Unit
  | [] => .ok ()
  | i :: rest =>
      match alookup cur (.kstr i) with
      | some _ => fixupRefsCheck cur rest
      | none => .error (.keyError (.kstr i))

/-- One iteration of the `for name, node in self.all.items()` loop:
rewrite the node's location in place, then either run its fixup lookups or
append it to `remove`. -/
def fixupStep (acc : Registry × List CNode) (e : Key × RNode) :
    Except PyErr (Registry × List CNode) := do
  let (cur, remove) := acc
  let loc' ← fixupLocation cur e.2.location
  let rn' : RNode := { e.2 with location := loc' }
  let cur' := aput cur e.1 rn'
  match fixupRefIds rn'.node with
  | some ids => do
      fixupRefsCheck cur' ids
      pure (cur', remove)
  | none => pure (cur', remove ++ [rn'.node])

/-- The `for name, node in self.all.items()` loop over the snapshot,
threading the dict and the `remove` list. -/
def fixupFold (acc : Registry × List CNode) :
    List (Key × RNode) → Except PyErr (Registry × List CNode)
  | [] => .ok acc
  | e :: rest => do
      let acc' ← fixupStep acc e
      fixupFold acc' rest

/-- The whole fixup loop.  `snapshot` is `self.all.items()`: the one dict
in its (unspecified) iteration order; it is also the threaded dict itself,
since the loop never adds or removes entries. -/
def fixupLoop (snapshot : Registry) : Except PyErr (Registry × List CNode) :=
  fixupFold (snapshot, []) snapshot

/-- `for n in remove: del self.all[n]`.  The loop variable is the c_ast
node object, but every key of `self.all` is an id string or an `id()`
integer; the default identity equality makes a node object equal to
neither, so the first deletion already raises `KeyError`. -/
def removeLoop (cur : Registry) (remove : List CNode) :
    Except PyErr Registry :=
  match remove with
  | [] => .ok cur
  | _ :: _ => .error .keyErrorNode

/-- The declaration kinds kept by `get_result` (`isinstance(node,
interesting)`). -/
def interesting : CNode → Bool
  | .Typedef _ _ _ => true
  | .Struct _ _ _ _ _ _ => true
  | .Enumeration _ _ _ _ => true
  | .Union _ _ _ _ _ _ => true
  | .Function _ _ _ _ _ _ => true
  | .Variable _ _ _ _ => true
  | .Namespace _ _ => true
  | .File _ => true
  | _ => false

/-- The result/namespace loop of `get_result`: walk the registry (same
dict, same iteration order as the fixup loop), keep interesting nodes in
order, and map each one's non-`None` name to it (last writer wins).  The
namespace values are the nodes' registry keys (object identity = key). -/
def assembleStep (acc : List CNode × List (String × Key)) (e : Key × RNode) :
    List CNode × List (String × Key) :=
  if interesting e.2.node then
    let ns := match nameAttr? e.2.node with
      | some (some nm) => aput acc.2 nm e.1
      | _ => acc.2
    (acc.1 ++ [e.2.node], ns)
  else acc

def assemble (cur : Registry) : List CNode × List (String × Key) :=
  cur.foldl assembleStep ([], [])

/-- One line of the macro dump: `name, body = m.split(None, 1)` then
`name, args = name.split('(', 1)`; `none` when either unpacking would
raise `ValueError` (fewer than two parts). -/
def macroLineParse? (m : String) : Option (String × String × String) :=
  match pySplitNone1 m with
  | [hdr, body] =>
      match pySplit1 '(' hdr with
      | [name, args0] => some (name, args0, body)
      | _ => none
  | _ => none

/-- The per-line loop of `get_macros`: parse each line and register the
macro in `self.all` under its *name*; a line that cannot be unpacked
raises `ValueError` and aborts the whole call. -/
def macroFold (cur : Registry) : List String → Except PyErr Registry
  | [] => .ok cur
  | m :: rest =>
      match macroLineParse? m with
      | some (name, args0, body) =>
          macroFold
            (aput cur (.kstr name)
              { node := CNode.Macro name ("(" ++ args0) body, location := none })
            rest
      | none => .error (.valueError "unpack")

/-- `get_macros`. -/
def get_macros (all : Registry) (text : Option (List CData)) :
    Except PyErr Registry := do
  match text with
  | none => pure all
  | some chunks => do
      let t ← joinCData chunks
      macroFold all (pySplitlines t)

/-- The one-hop alias target: the namespace first, then the other aliases
of the same dump, else unresolved. -/
def aliasOneHop (ns : List (String × Key)) (aliases : List (String × String))
    (value : String) : Option AliasTarget :=
  match alookup ns value with
  | some k => some (.nsNode k)
  | none =>
      match alookup aliases value with
      | some _ => some (.aliasNode value)
      | none => none

/-- One line of the alias dump: `name, value = a.split(None, 1)`; `none`
when the unpacking would raise `ValueError` (fewer than two parts). -/
def aliasLineParse? (a : String) : Option (String × String) :=
  match pySplitNone1 a with
  | [name, value] => some (name, value)
  | _ => none

/-- The per-line loop of `get_aliases`: parse each line, build
`Alias(name, value)`, and store it both in the `aliases` dict and in
`self.all`, keyed by its *name*; a line that cannot be unpacked raises
`ValueError` and aborts the whole call. -/
def aliasFold (acc : Registry × List (String × String)) :
    List String → Except PyErr (Registry × List (String × String))
  | [] => .ok acc
  | a :: rest =>
      match aliasLineParse? a with
      | some (name, value) =>
          aliasFold
            (aput acc.1 (.kstr name)
               { node := CNode.Alias name value none, location := none },
             aput acc.2 name value)
            rest
      | none => .error (.valueError "unpack")

/-- `get_aliases`: parse each line into `Alias(name, value)`, registering
it in `self.all` under its *name*, then resolve each alias's value with
`aliasOneHop`.  Returns the updated registry and the aliases dict. -/
def get_aliases (all : Registry) (text : Option (List CData))
    (ns : List (String × Key)) :
    Except PyErr (Registry × List (String × CNode)) := do
  match text with
  | none => pure (all, [])
  | some chunks => do
      let t ← joinCData chunks
      let (all, aliases) ← aliasFold (all, []) (pySplitlines t)
      let resolved := aliases.map (fun p =>
        (p.1, CNode.Alias p.1 p.2 (aliasOneHop ns aliases p.2)))
      let all := resolved.foldl (fun c p =>
        aput c (.kstr p.1) { node := p.2, location := none }) all
      pure (all, resolved)

/-- `get_result`.  `order` is the iteration snapshot of `self.all` at the
top of the fixup loop (after `get_macros` has run): Python 2 dicts fix no
particular order, so any permutation of the dict contents is admissible;
theorems carry that admissibility as a `List.Perm` hypothesis.  The
version warnings have no observable effect and are omitted.  Returns the
result list together with the final registry. -/
def get_result (st : PState) (order : Registry) :
    Except PyErr (List CNode × Registry) := do
  let _allAfterMacros ← get_macros st.all (alookup st.cpp_data "functions")
  let (cur, remove) ← fixupLoop order
  let cur ← removeLoop cur remove
  let (result, ns) := assemble cur
  let (cur, _aliases) ← get_aliases cur (alookup st.cpp_data "aliases") ns
  pure (result, cur)

/-- The module-level `parse(xmlfile)`: stream the events, then assemble.
`order` as in `get_result`. -/
def pyParse (evs : List XEvent) (order : Registry) :
    Except PyErr (List CNode × Registry) := do
  let st ← parseEvents evs
  get_result st order

/-! ### Well-formedness predicates for fixup -/

/-- Did the computation succeed? -/
def isOkB {ε α : Type} : Except ε α → Bool
  | .ok _ => true
  | .error _ => false

/-- The node's `location` attribute survives the rewrite at the top of the
fixup loop: absent, or a `fil:line` string whose file id is registered
under a node that has a `name` attribute and whose line parses as an int. -/
def locOk (r : Registry) : Option PyLoc → Bool
  | none => true
  | some (.res _ _) => false
  | some (.raw s) =>
      match splitChar ':' s with
      | [fil, line] =>
          (match alookup r (.kstr fil) with
           | some rn => (nameAttr? rn.node).isSome
           | none => false) && isOkB (pyInt line)
      | _ => false

/-- Every reference-id field the node's fixup method dereferences is
present in the registry. -/
def refsOkNode (r : Registry) (n : CNode) : Bool :=
  ((fixupRefIds n).getD []).all (fun i => (alookup r (.kstr i)).isSome)

/-- Every node's location is sound and its kind has a fixup method. -/
def locsKindsOk (r : Registry) : Bool :=
  r.all (fun e => locOk r e.2.location && hasFixup e.2.node)

/-- The fixup pass can fully resolve the registry: locations sound, every
kind fixable, every reference id present. -/
def registryFixupOk (r : Registry) : Bool :=
  r.all (fun e => locOk r e.2.location && refsOkNode r e.2.node
                  && hasFixup e.2.node)

/-! ### Association-list lemmas -/

section AssocLemmas

variable {κ α β : Type} [DecidableEq κ]

theorem alookup_eq_some_of_mem {l : List (κ × α)} {k : κ} {v : α}
    (hnd : (l.map Prod.fst).Nodup) (hm : (k, v) ∈ l) :
    alookup l k = some v := by
  induction l with
  | nil => cases hm
  | cons e rest ih =>
      obtain ⟨k', v'⟩ := e
      simp only [List.map_cons, List.nodup_cons] at hnd
      rcases List.mem_cons.mp hm with h | h
      · cases h
        simp [alookup]
      · have hk : k ∈ rest.map Prod.fst := by
          simpa using List.mem_map_of_mem Prod.fst h
        have hne : k' ≠ k := fun he => hnd.1 (he ▸ hk)
        simp [alookup, hne, ih hnd.2 h]

theorem mem_of_alookup_eq_some {l : List (κ × α)} {k : κ} {v : α}
    (h : alookup l k = some v) : (k, v) ∈ l := by
  induction l with
  | nil => cases h
  | cons e rest ih =>
      obtain ⟨k', v'⟩ := e
      by_cases he : k' = k
      · subst he
        simp [alookup] at h
        simp [h]
      · simp [alookup, he] at h
        exact List.mem_cons_of_mem _ (ih h)

theorem alookup_map_snd (f : α → β) (l : List (κ × α)) (k : κ) :
    alookup (l.map (fun e => (e.1, f e.2))) k = (alookup l k).map f := by
  induction l with
  | nil => rfl
  | cons e rest ih =>
      obtain ⟨k', v'⟩ := e
      by_cases he : k' = k
      · subst he; simp [alookup]
      · simp [alookup, he, ih]

theorem aput_map_snd (f : α → β) (l : List (κ × α)) (k : κ) (v : α) :
    (aput l k v).map (fun e => (e.1, f e.2))
      = aput (l.map (fun e => (e.1, f e.2))) k (f v) := by
  induction l with
  | nil => rfl
  | cons e rest ih =>
      obtain ⟨k', v'⟩ := e
      by_cases he : k' = k
      · subst he; simp [aput]
      · simp [aput, he, ih]

theorem aput_self {l : List (κ × α)} {k : κ} {v : α}
    (h : alookup l k = some v) : aput l k v = l := by
  induction l with
  | nil => cases h
  | cons e rest ih =>
      obtain ⟨k', v'⟩ := e
      by_cases he : k' = k
      · subst he
        simp [alookup] at h
        simp [aput, h]
      · simp [alookup, he] at h
        simp [aput, he, ih h]

theorem aput_mem_self (l : List (κ × α)) (k : κ) (v : α) :
    (k, v) ∈ aput l k v := by
  induction l with
  | nil => simp [aput]
  | cons e rest ih =>
      obtain ⟨k', v'⟩ := e
      by_cases he : k' = k
      · subst he; simp [aput]
      · simp only [aput, if_neg he]
        exact List.mem_cons_of_mem _ ih

end AssocLemmas

/-- Two registries with the same id→node content resolve ids to the same
nodes. -/
theorem alookup_node_congr {cur cur₀ : Registry}
    (h : stripLoc cur = stripLoc cur₀) (k : Key) :
    (alookup cur k).map RNode.node = (alookup cur₀ k).map RNode.node := by
  have h1 := alookup_map_snd RNode.node cur k
  have h2 := alookup_map_snd RNode.node cur₀ k
  simp only [stripLoc] at h
  rw [← h1, ← h2, h]

/-- Rewriting a node's location in place does not change the registry's
id→node content. -/
theorem stripLoc_aput_self {cur : Registry} {k : Key} {n : CNode}
    (h : (alookup cur k).map RNode.node = some n) (rn : RNode)
    (hn : rn.node = n) : stripLoc (aput cur k rn) = stripLoc cur := by
  have h1 : alookup (stripLoc cur) k = some n := by
    simpa [stripLoc, alookup_map_snd] using h
  calc stripLoc (aput cur k rn)
      = aput (stripLoc cur) k rn.node := by
        simpa [stripLoc] using aput_map_snd RNode.node cur k rn
    _ = aput (stripLoc cur) k n := by rw [hn]
    _ = stripLoc cur := aput_self h1

/-! ### Reduction lemmas for `Except` computations -/

theorem except_bind_ok {ε α β : Type} (x : α) (f : α → Except ε β) :
    (Except.ok x >>= f : Except ε β) = f x := rfl

theorem except_bind_err {ε α β : Type} (e : ε) (f : α → Except ε β) :
    (Except.error e >>= f : Except ε β) = Except.error e := rfl

theorem except_map_ok {ε α β : Type} (f : α → β) (x : α) :
    (f <$> (Except.ok x : Except ε α) : Except ε β) = Except.ok (f x) := rfl

theorem except_map_err {ε α β : Type} (f : α → β) (e : ε) :
    (f <$> (Except.error e : Except ε α) : Except ε β) = Except.error e := rfl

/-! ### Behaviour of the fixup loop -/

/-- A sound location rewrites successfully (lookups transfer along equal
id→node content). -/
theorem fixupLocation_ok {cur cur₀ : Registry}
    (hstrip : stripLoc cur = stripLoc cur₀) {loc : Option PyLoc}
    (hloc : locOk cur₀ loc = true) :
    ∃ loc', fixupLocation cur loc = .ok loc' := by
  match loc with
  | none => exact ⟨none, rfl⟩
  | some (.res f l) => exact ⟨some (.res f l), rfl⟩
  | some (.raw s) =>
      simp only [locOk] at hloc
      split at hloc
      case _ fil line hsp =>
        rw [Bool.and_eq_true] at hloc
        obtain ⟨hfil, hint⟩ := hloc
        split at hfil
        case _ rn₂ hrn₂ =>
          have hcur : (alookup cur (.kstr fil)).map RNode.node
              = some rn₂.node := by
            rw [alookup_node_congr hstrip, hrn₂]; rfl
          obtain ⟨rn₂', hrn₂', hnode⟩ := Option.map_eq_some'.mp hcur
          have hfil' : (nameAttr? rn₂'.node).isSome = true := by
            rw [hnode]; exact hfil
          obtain ⟨nm, hnm⟩ := Option.isSome_iff_exists.mp hfil'
          obtain ⟨v, hv⟩ : ∃ v, pyInt line = .ok v := by
            cases h : pyInt line with
            | ok v => exact ⟨v, rfl⟩
            | error e => rw [h] at hint; simp [isOkB] at hint
          refine ⟨some (.res nm v), ?_⟩
          simp [fixupLocation, hsp, hrn₂', hnm, hv, except_bind_ok]
        case _ h => cases hfil
      case _ h => cases hloc

/-- All ids present: the fixup lookups of one node all succeed. -/
theorem fixupRefsCheck_ok {cur : Registry} {ids : List String}
    (h : ∀ i ∈ ids, (alookup cur (.kstr i)).isSome = true) :
    fixupRefsCheck cur ids = .ok () := by
  induction ids with
  | nil => rfl
  | cons i rest ih =>
      obtain ⟨rn, hrn⟩ := Option.isSome_iff_exists.mp (h i (by simp))
      simp only [fixupRefsCheck, hrn]
      exact ih (fun j hj => h j (List.mem_cons_of_mem _ hj))

/-- Some id missing: the fixup lookups of one node raise `KeyError` on an
id that is absent (from `cur₀`; `cur` has the same id→node content). -/
theorem fixupRefsCheck_err {cur cur₀ : Registry}
    (hstrip : stripLoc cur = stripLoc cur₀) {ids : List String}
    (h : ∃ i ∈ ids, (alookup cur₀ (.kstr i)).isSome = false) :
    ∃ m, fixupRefsCheck cur ids = .error (.keyError (.kstr m))
      ∧ alookup cur₀ (.kstr m) = none := by
  induction ids with
  | nil => simp at h
  | cons i rest ih =>
      cases hcur : alookup cur (.kstr i) with
      | some rn =>
          have hsome : (alookup cur₀ (.kstr i)).isSome = true := by
            have := alookup_node_congr hstrip (.kstr i)
            rw [hcur] at this
            cases h0 : alookup cur₀ (.kstr i) with
            | some _ => rfl
            | none => rw [h0] at this; cases this
          obtain ⟨j, hj, hjfalse⟩ := h
          rcases List.mem_cons.mp hj with rfl | hj'
          · rw [hsome] at hjfalse; cases hjfalse
          · obtain ⟨m, hm1, hm2⟩ := ih ⟨j, hj', hjfalse⟩
            exact ⟨m, by simp only [fixupRefsCheck, hcur]; exact hm1, hm2⟩
      | none =>
          refine ⟨i, by simp [fixupRefsCheck, hcur], ?_⟩
          have := alookup_node_congr hstrip (.kstr i)
          rw [hcur] at this
          cases h0 : alookup cur₀ (.kstr i) with
          | some _ => rw [h0] at this; cases this
          | none => rfl

/-- One loop iteration on a node whose location is sound, whose kind has a
fixup method and whose references all resolve: it succeeds and leaves the
id→node content unchanged. -/
theorem fixupStep_ok {cur cur₀ : Registry} {rem : List CNode}
    {k : Key} {rn : RNode}
    (hstrip : stripLoc cur = stripLoc cur₀)
    (hk : alookup cur₀ k = some rn)
    (hloc : locOk cur₀ rn.location = true)
    (hfix : hasFixup rn.node = true)
    (hrefs : refsOkNode cur₀ rn.node = true) :
    ∃ cur', fixupStep (cur, rem) (k, rn) = .ok (cur', rem)
      ∧ stripLoc cur' = stripLoc cur₀ := by
  obtain ⟨loc', hloc'⟩ := fixupLocation_ok hstrip hloc
  have hnode : (alookup cur k).map RNode.node = some rn.node := by
    rw [alookup_node_congr hstrip k, hk]; rfl
  have hstrip' : stripLoc (aput cur k { rn with location := loc' })
      = stripLoc cur₀ := by
    rw [stripLoc_aput_self hnode ({ rn with location := loc' }) rfl]
    exact hstrip
  obtain ⟨ids, hids⟩ := Option.isSome_iff_exists.mp hfix
  have hrefs' : ∀ i ∈ ids, (alookup (aput cur k { rn with location := loc' })
      (.kstr i)).isSome = true := by
    intro i hi
    simp only [refsOkNode, hids, Option.getD_some, List.all_eq_true] at hrefs
    have h0 := hrefs i hi
    have := alookup_node_congr hstrip' (.kstr i)
    cases h1 : alookup (aput cur k { rn with location := loc' }) (.kstr i) with
    | some _ => rfl
    | none =>
        rw [h1] at this
        cases h2 : alookup cur₀ (.kstr i) with
        | some _ => rw [h2] at this; cases this
        | none => rw [h2] at h0; cases h0
  refine ⟨aput cur k { rn with location := loc' }, ?_, hstrip'⟩
  simp [fixupStep, hloc', hids, fixupRefsCheck_ok hrefs', except_bind_ok,
        except_map_ok]

/-- One loop iteration on a node with sound location and a fixup method
but a dangling reference: it raises `KeyError` on an absent id. -/
theorem fixupStep_err {cur cur₀ : Registry} {rem : List CNode}
    {k : Key} {rn : RNode}
    (hstrip : stripLoc cur = stripLoc cur₀)
    (hk : alookup cur₀ k = some rn)
    (hloc : locOk cur₀ rn.location = true)
    (hfix : hasFixup rn.node = true)
    (hrefs : refsOkNode cur₀ rn.node = false) :
    ∃ m, fixupStep (cur, rem) (k, rn) = .error (.keyError (.kstr m))
      ∧ alookup cur₀ (.kstr m) = none := by
  obtain ⟨loc', hloc'⟩ := fixupLocation_ok hstrip hloc
  have hnode : (alookup cur k).map RNode.node = some rn.node := by
    rw [alookup_node_congr hstrip k, hk]; rfl
  have hstrip' : stripLoc (aput cur k { rn with location := loc' })
      = stripLoc cur₀ := by
    rw [stripLoc_aput_self hnode ({ rn with location := loc' }) rfl]
    exact hstrip
  obtain ⟨ids, hids⟩ := Option.isSome_iff_exists.mp hfix
  have hbad : ∃ i ∈ ids, (alookup cur₀ (.kstr i)).isSome = false := by
    simp only [refsOkNode, hids, Option.getD_some] at hrefs
    rcases List.all_eq_false.mp hrefs with ⟨i, hi, hfi⟩
    exact ⟨i, hi, by simpa using hfi⟩
  obtain ⟨m, hm1, hm2⟩ := fixupRefsCheck_err hstrip' hbad
  refine ⟨m, ?_, hm2⟩
  simp [fixupStep, hloc', hids, hm1, except_bind_ok, except_map_err]

/-- The fixup loop succeeds on a remaining snapshot of fully resolvable
entries, never touching `remove` and preserving the id→node content. -/
theorem fixupFold_ok {cur₀ : Registry} (hnd : (cur₀.map Prod.fst).Nodup)
    (hok : registryFixupOk cur₀ = true) (rest : List (Key × RNode)) :
    ∀ (cur : Registry) (rem : List CNode),
      stripLoc cur = stripLoc cur₀ → (∀ e ∈ rest, e ∈ cur₀) →
      ∃ cur', fixupFold (cur, rem) rest = .ok (cur', rem)
        ∧ stripLoc cur' = stripLoc cur₀ := by
  induction rest with
  | nil => exact fun cur rem hstrip _ => ⟨cur, rfl, hstrip⟩
  | cons e rest ih =>
      intro cur rem hstrip hmem
      obtain ⟨k, rn⟩ := e
      have hk : alookup cur₀ k = some rn :=
        alookup_eq_some_of_mem hnd (hmem (k, rn) (List.mem_cons_self _ _))
      have hcond := (List.all_eq_true.mp hok) (k, rn)
        (hmem (k, rn) (List.mem_cons_self _ _))
      simp only [Bool.and_eq_true] at hcond
      obtain ⟨⟨hloc, hrefs⟩, hfix⟩ := hcond
      obtain ⟨cur₁, hstep, hstrip₁⟩ :=
        @fixupStep_ok cur cur₀ rem k rn hstrip hk hloc hfix hrefs
      obtain ⟨cur', hfold, hstrip'⟩ := ih cur₁ rem hstrip₁
        (fun x hx => hmem x (List.mem_cons_of_mem _ hx))
      exact ⟨cur', by simp [fixupFold, hstep, except_bind_ok, hfold], hstrip'⟩

/-- If some remaining entry has a dangling reference (and all locations
are sound and all kinds fixable), the fixup loop raises `KeyError` on an
id absent from the registry. -/
theorem fixupFold_err {cur₀ : Registry} (hnd : (cur₀.map Prod.fst).Nodup)
    (hlk : locsKindsOk cur₀ = true) (rest : List (Key × RNode)) :
    ∀ (cur : Registry) (rem : List CNode),
      stripLoc cur = stripLoc cur₀ → (∀ e ∈ rest, e ∈ cur₀) →
      (∃ e ∈ rest, refsOkNode cur₀ e.2.node = false) →
      ∃ m, fixupFold (cur, rem) rest = .error (.keyError (.kstr m))
        ∧ alookup cur₀ (.kstr m) = none := by
  induction rest with
  | nil => intro _ _ _ _ hbad; simp at hbad
  | cons e rest ih =>
      intro cur rem hstrip hmem hbad
      obtain ⟨k, rn⟩ := e
      have hk : alookup cur₀ k = some rn :=
        alookup_eq_some_of_mem hnd (hmem (k, rn) (List.mem_cons_self _ _))
      have hcond := (List.all_eq_true.mp hlk) (k, rn)
        (hmem (k, rn) (List.mem_cons_self _ _))
      simp only [Bool.and_eq_true] at hcond
      obtain ⟨hloc, hfix⟩ := hcond
      cases hr : refsOkNode cur₀ rn.node with
      | false =>
          obtain ⟨m, hstep, hm2⟩ :=
            @fixupStep_err cur cur₀ rem k rn hstrip hk hloc hfix hr
          exact ⟨m, by simp [fixupFold, hstep, except_bind_err], hm2⟩
      | true =>
          obtain ⟨cur₁, hstep, hstrip₁⟩ :=
            @fixupStep_ok cur cur₀ rem k rn hstrip hk hloc hfix hr
          obtain ⟨x, hx, hxbad⟩ := hbad
          rcases List.mem_cons.mp hx with rfl | hx'
          · have hxbad' : refsOkNode cur₀ rn.node = false := hxbad
            rw [hr] at hxbad'
            cases hxbad'
          · obtain ⟨m, hfold, hm2⟩ := ih cur₁ rem hstrip₁
              (fun y hy => hmem y (List.mem_cons_of_mem _ hy)) ⟨x, hx', hxbad⟩
            exact ⟨m, by simp [fixupFold, hstep, except_bind_ok, hfold], hm2⟩

/-- The whole fixup loop on a fully resolvable registry: one linear pass,
no error, nothing scheduled for removal, id→node content preserved. -/
theorem fixupLoop_ok {cur₀ : Registry} (hnd : (cur₀.map Prod.fst).Nodup)
    (hok : registryFixupOk cur₀ = true) :
    ∃ cur', fixupLoop cur₀ = .ok (cur', []) ∧ stripLoc cur' = stripLoc cur₀ :=
  fixupFold_ok hnd hok cur₀ cur₀ [] rfl (fun _ h => h)

/-- The whole fixup loop with a dangling reference present: `KeyError` on
an absent id. -/
theorem fixupLoop_err {cur₀ : Registry} (hnd : (cur₀.map Prod.fst).Nodup)
    (hlk : locsKindsOk cur₀ = true)
    (hbad : ∃ e ∈ cur₀, refsOkNode cur₀ e.2.node = false) :
    ∃ m, fixupLoop cur₀ = .error (.keyError (.kstr m))
      ∧ alookup cur₀ (.kstr m) = none :=
  fixupFold_err hnd hlk cur₀ cur₀ [] rfl (fun _ h => h) hbad

/-- The interesting-kind nodes of a registry, in registry order. -/
def interestingNodes (r : Registry) : List CNode :=
  r.filterMap (fun e => if interesting e.2.node then some e.2.node else none)

/-- The result component of `assemble` is the interesting-kind filter of
the registry, in registry order. -/
theorem assemble_fst (cur : Registry) :
    (assemble cur).1 = interestingNodes cur := by
  suffices h : ∀ acc : List CNode × List (String × Key),
      (cur.foldl assembleStep acc).1 = acc.1 ++ interestingNodes cur by
    simpa using h ([], [])
  induction cur with
  | nil => intro acc; simp [interestingNodes]
  | cons e rest ih =>
      intro acc
      by_cases h : interesting e.2.node
      · simp [assembleStep, h, interestingNodes, List.filterMap_cons, ih]
      · simp [assembleStep, h, interestingNodes, List.filterMap_cons, ih]

/-- Equal id→node content yields the same interesting-kind filter. -/
theorem interestingNodes_congr {cur cur₀ : Registry}
    (h : stripLoc cur = stripLoc cur₀) :
    interestingNodes cur = interestingNodes cur₀ := by
  have h1 : ∀ r : Registry, interestingNodes r
      = (stripLoc r).filterMap
          (fun e => if interesting e.2 then some e.2 else none) := by
    intro r
    rw [interestingNodes, stripLoc, List.filterMap_map]
    rfl
  rw [h1, h1, h]

/-- `get_result` on a state with no dump sections and a fully resolvable
registry snapshot: it succeeds, returning the interesting-kind filter of
the snapshot (in snapshot order) and a final registry with the same
id→node content. -/
theorem get_result_ok {st : PState} {order : Registry}
    (hcpp : st.cpp_data = []) (hnd : (order.map Prod.fst).Nodup)
    (hok : registryFixupOk order = true) :
    ∃ reg, get_result st order = .ok (interestingNodes order, reg)
      ∧ stripLoc reg = stripLoc order := by
  obtain ⟨cur', hloop, hstrip⟩ := fixupLoop_ok hnd hok
  refine ⟨cur', ?_, hstrip⟩
  have hres : (assemble cur').1 = interestingNodes order := by
    rw [assemble_fst, interestingNodes_congr hstrip]
  simp [get_result, hcpp, alookup, get_macros, hloop, removeLoop,
        get_aliases, except_bind_ok, hres]

/-- A fixup-loop failure propagates out of `get_result` unchanged (no dump
sections present). -/
theorem get_result_err {st : PState} {order : Registry} {e : PyErr}
    (hcpp : st.cpp_data = []) (hloop : fixupLoop order = .error e) :
    get_result st order = .error e := by
  simp [get_result, hcpp, alookup, get_macros, hloop, except_bind_ok,
        except_bind_err]

/-! ### The claims -/

/-- Scenario B: a registry holding a Struct whose Field's type is a
PointerType carrying the Struct's own id — a cyclic reference graph. -/
def scenB : Registry :=
  [ (.kstr "f0", { node := .File "a.h", location := none }),
    (.kstr "s1", { node := .Struct "S" "32" ["fl1"] "f0" [] (some "32"),
                   location := none }),
    (.kstr "fl1", { node := .Field "next" "p1" "s1" none none,
                    location := none }),
    (.kstr "p1", { node := .PointerType "s1" "32" "32", location := none }) ]

def scenBState : PState := { initPState with all := scenB }

/-- C1: for every registry whose reference-id fields (and location file
ids) all resolve, the fixup pass terminates successfully — it is one
structural pass over the flat registry (`fixupFold`), with no recursive
descent into referenced nodes, so cycles cannot recurse — and afterwards a
Struct containing a Field whose type is a PointerType carrying the
Struct's own id satisfies: dereferencing the field's type gives the
pointer node, and dereferencing the pointer's type gives back exactly the
registry entry of that Struct (object identity = registry key; see the
header comment).  `order` is the dict's arbitrary iteration snapshot. -/
theorem C1_cyclic_fixup_resolves (st : PState) (order : Registry)
    (hcpp : st.cpp_data = []) (hperm : order.Perm st.all)
    (hnd : (order.map Prod.fst).Nodup)
    (hok : registryFixupOk order = true)
    (sid : String) (rs : RNode) (nm al ctx : String) (ms bs : List String)
    (sz : Option String)
    (hs : (Key.kstr sid, rs) ∈ order)
    (hsn : rs.node = .Struct nm al ms ctx bs sz)
    (fid : String) (rf : RNode) (fn pid fctx : String)
    (bits off : Option String)
    (hfmem : fid ∈ ms)
    (hf : (Key.kstr fid, rf) ∈ order)
    (hfn : rf.node = .Field fn pid fctx bits off)
    (rp : RNode) (psz pal : String)
    (hp : (Key.kstr pid, rp) ∈ order)
    (hpn : rp.node = .PointerType sid psz pal) :
    ∃ reg, get_result st order = .ok (interestingNodes order, reg)
      ∧ (alookup reg (.kstr fid)).map RNode.node
          = some (.Field fn pid fctx bits off)
      ∧ (alookup reg (.kstr pid)).map RNode.node
          = some (.PointerType sid psz pal)
      ∧ (alookup reg (.kstr sid)).map RNode.node
          = some (.Struct nm al ms ctx bs sz) := by
  obtain ⟨reg, hres, hstrip⟩ := get_result_ok hcpp hnd hok
  refine ⟨reg, hres, ?_, ?_, ?_⟩
  · rw [alookup_node_congr hstrip, alookup_eq_some_of_mem hnd hf,
        Option.map_some', hfn]
  · rw [alookup_node_congr hstrip, alookup_eq_some_of_mem hnd hp,
        Option.map_some', hpn]
  · rw [alookup_node_congr hstrip, alookup_eq_some_of_mem hnd hs,
        Option.map_some', hsn]

/-- C1 witness: Scenario B on the concrete cyclic registry `scenB`. -/
theorem C1_cyclic_fixup_resolves_witness :
    ∃ reg, get_result scenBState scenB = .ok (interestingNodes scenB, reg)
      ∧ (alookup reg (.kstr "fl1")).map RNode.node
          = some (.Field "next" "p1" "s1" none none)
      ∧ (alookup reg (.kstr "p1")).map RNode.node
          = some (.PointerType "s1" "32" "32")
      ∧ (alookup reg (.kstr "s1")).map RNode.node
          = some (.Struct "S" "32" ["fl1"] "f0" [] (some "32")) :=
  C1_cyclic_fixup_resolves scenBState scenB rfl (List.Perm.refl _)
    (by decide) (by decide)
    "s1" { node := .Struct "S" "32" ["fl1"] "f0" [] (some "32"),
           location := none }
    "S" "32" "f0" ["fl1"] [] (some "32") (by decide) rfl
    "fl1" { node := .Field "next" "p1" "s1" none none, location := none }
    "next" "p1" "s1" none none (by decide) (by decide) rfl
    { node := .PointerType "s1" "32" "32", location := none }
    "32" "32" (by decide) rfl

/-- A registry with a Variable whose type id "t9" is absent. -/
def scenDangling : Registry :=
  [ (.kstr "v1", { node := .Variable "x" "t9" "f0" none, location := none }),
    (.kstr "f0", { node := .File "a.h", location := none }) ]

def scenDanglingState : PState := { initPState with all := scenDangling }

/-- C2 (amended): for every registry containing a node with a
reference-id field whose id is absent, the fixup pass fails fatally — but
with the *built-in KeyError* naming the missing id, not the
`MissingReferenceError` the claim states (the source defines no such
error; spec §9 itself records this as an open question), and the error
does not carry the owning node. -/
theorem C2_missing_ref_raises_keyError (st : PState) (order : Registry)
    (hcpp : st.cpp_data = []) (hperm : order.Perm st.all)
    (hnd : (order.map Prod.fst).Nodup)
    (hlk : locsKindsOk order = true)
    (k : Key) (rn : RNode) (hmem : (k, rn) ∈ order)
    (r : String) (hr : r ∈ (fixupRefIds rn.node).getD [])
    (habs : alookup order (.kstr r) = none) :
    ∃ m, get_result st order = .error (.keyError (.kstr m))
      ∧ alookup order (.kstr m) = none := by
  have hbad : ∃ e ∈ order, refsOkNode order e.2.node = false := by
    refine ⟨(k, rn), hmem, ?_⟩
    refine List.all_eq_false.mpr ⟨r, hr, ?_⟩
    simp [habs]
  obtain ⟨m, hloop, hm⟩ := fixupLoop_err hnd hlk hbad
  exact ⟨m, get_result_err hcpp hloop, hm⟩

/-- C2 witness: the amended claim applied to the dangling registry. -/
theorem C2_missing_ref_raises_keyError_witness :
    ∃ m, get_result scenDanglingState scenDangling
        = .error (.keyError (.kstr m))
      ∧ alookup scenDangling (.kstr m) = none :=
  C2_missing_ref_raises_keyError scenDanglingState scenDangling rfl
    (List.Perm.refl _) (by decide) (by decide)
    (.kstr "v1") { node := .Variable "x" "t9" "f0" none, location := none }
    (by decide) "t9" (by decide) (by decide)

/-- C2 counterexample: at the concrete dangling registry the error raised
is the generic `KeyError("t9")` — it is not a `MissingReferenceError`
(`isMissingRef` is false) and names only the missing id, not the owning
node, refuting the claim as stated. -/
theorem C2_counterexample :
    get_result scenDanglingState scenDangling
      = .error (.keyError (.kstr "t9"))
    ∧ (PyErr.keyError (.kstr "t9")).isMissingRef = false := by
  exact ⟨by decide, rfl⟩

/-- A registry containing a node whose class has no `_fixup_` method
(`c_ast.Alias` — the parser defines no `_fixup_Alias`). -/
def scenNoFixup : Registry :=
  [ (.kstr "a1", { node := .Alias "ALIAS" "B" none, location := none }),
    (.kstr "f0", { node := .File "a.h", location := none }) ]

def scenNoFixupState : PState := { initPState with all := scenNoFixup }

/-- C6 (code bug): a registry entry whose node kind has no fixup routine
is appended to `remove`, and the removal loop then executes
`del self.all[n]` with `n` the *node object* — but every key of `self.all`
is an id string or an `id()` integer, so the deletion raises `KeyError`
instead of dropping the entry: `get_result` aborts rather than returning
the remaining nodes, contradicting the source's own comment ("remove any
nodes don't have handler methods") and the claim. -/
theorem C6_remove_raises_keyError :
    get_result scenNoFixupState scenNoFixup = .error .keyErrorNode
    ∧ interestingNodes scenNoFixup = [.File "a.h"] := by
  exact ⟨by decide, rfl⟩

/-- C4 (amended): the assembled result contains exactly the resolved
registry nodes of the kinds File, Namespace, Variable, Typedef, Struct,
Union, Enumeration, Function — equal as a multiset (`Perm`) to the
interesting-kind filter of the registry — but listed in the dict's
iteration order `order`, which Python 2 leaves unspecified, not
necessarily in discovery (insertion) order. -/
theorem C4_result_is_interesting_filter (st : PState) (order : Registry)
    (hcpp : st.cpp_data = []) (hperm : order.Perm st.all)
    (hnd : (order.map Prod.fst).Nodup)
    (hok : registryFixupOk order = true) :
    ∃ reg, get_result st order = .ok (interestingNodes order, reg)
      ∧ (interestingNodes order).Perm (interestingNodes st.all) := by
  obtain ⟨reg, hres, _⟩ := get_result_ok hcpp hnd hok
  exact ⟨reg, hres, hperm.filterMap _⟩

/-- Discovery (insertion) order of the Scenario-A-like registry below:
File first, then FundamentalType, then Variable. -/
def c4all : Registry :=
  [ (.kstr "f0", { node := .File "a.h", location := none }),
    (.kstr "t1", { node := .FundamentalType "int" "32" "32",
                   location := none }),
    (.kstr "v1", { node := .Variable "x" "t1" "f0" none,
                   location := none }) ]

/-- An admissible iteration order of the same dict contents (Python 2
promises none in particular) that lists the Variable's entry first. -/
def c4order : Registry :=
  [ (.kstr "v1", { node := .Variable "x" "t1" "f0" none,
                   location := none }),
    (.kstr "f0", { node := .File "a.h", location := none }),
    (.kstr "t1", { node := .FundamentalType "int" "32" "32",
                   location := none }) ]

def c4state : PState := { initPState with all := c4all }

/-- C4 counterexample: the result collection is built by iterating the
Python 2 dict (`for node in self.all.values()`), whose order is
unspecified.  Under the admissible iteration order `c4order` (a
permutation of the registry contents) the result lists the Variable before
the File, while discovery order lists the File first — so the claim's
"listed in original discovery order" does not hold of the code. -/
theorem C4_counterexample :
    c4order.Perm c4all
    ∧ get_result c4state c4order
        = .ok ([.Variable "x" "t1" "f0" none, .File "a.h"], c4order)
    ∧ interestingNodes c4all = [.File "a.h", .Variable "x" "t1" "f0" none]
    ∧ [CNode.Variable "x" "t1" "f0" none, .File "a.h"]
        ≠ [CNode.File "a.h", .Variable "x" "t1" "f0" none] := by
  refine ⟨by decide, by decide, rfl, by decide⟩

/-- C4 witness: the amended claim at the concrete registry and order. -/
theorem C4_result_is_interesting_filter_witness :
    ∃ reg, get_result c4state c4order
        = .ok (interestingNodes c4order, reg)
      ∧ (interestingNodes c4order).Perm (interestingNodes c4all) :=
  C4_result_is_interesting_filter c4state c4order rfl (by decide)
    (by decide) (by decide)

/-- C5 (amended): an element kind with no registered handler never aborts
the parse: `start_element` returns without error, records exactly one
non-fatal diagnostic, and leaves everything else — registry, context
stack, dump sections — unchanged.  However, contrary to the claim, *no*
generic placeholder is produced: `unhandled_element` only prints and
returns `None`, so nothing is registered and the element contributes no
node to the final result. -/
theorem C5_unhandled_element_diagnoses (st : PState) (name : String)
    (attrs : Attrs) (h : name ∉ handledNames) :
    start_element st name attrs
      = .ok { st with diags := st.diags
            ++ ["Unhandled element `" ++ name ++ "`."] } := by
  have hs : name ∉ has_subelements := by
    have hsub : ∀ x ∈ has_subelements, x ∈ handledNames := by decide
    exact fun hmem => h (hsub name hmem)
  simp [start_element, h, hs, unhandled_element, except_bind_ok]
  rfl

/-- C5 witness: the amended claim applied to a fresh parser state and the
unknown element kind "Frobnicator". -/
theorem C5_unhandled_element_diagnoses_witness :
    start_element initPState "Frobnicator" [("id", "_9")]
      = .ok { initPState with
              diags := ["Unhandled element `Frobnicator`."] } := by
  have h := C5_unhandled_element_diagnoses initPState "Frobnicator"
    [("id", "_9")] (by decide)
  simpa using h

/-- C5 counterexample: the claim says a generic placeholder is produced
for the unknown element; in fact `unhandled_element` returns no node at
all, and a whole parse containing the unknown element (which even carries
an id) finishes with an *empty* registry: nothing was synthesized or
registered for it. -/
theorem C5_counterexample :
    (unhandled_element initPState "Frobnicator").1 = none
    ∧ parseEvents [.start "Frobnicator" [("id", "_9")],
                   .stop "Frobnicator" none]
        = .ok { initPState with
                diags := ["Unhandled element `Frobnicator`."] }
    ∧ ({ initPState with
         diags := ["Unhandled element `Frobnicator`."] } : PState).all
        = [] := by
  refine ⟨rfl, by decide, rfl⟩

/-- C3 (amended): only `Class` elements strip an access-qualifier marker
from base-specifier ids, and only the marker `"protected:"` (removed as a
substring, every occurrence); `Struct` and `Union` elements keep their
base-list entries verbatim, so a prefixed base id of a Struct or Union is
looked up with its prefix and does not resolve to the unprefixed node. -/
theorem C3_only_class_strips_protected (attrs : Attrs)
    (nm bs ctx al : String)
    (hn : alookup attrs "name" = some nm)
    (hb : alookup attrs "bases" = some bs)
    (hc : alookup attrs "context" = some ctx)
    (ha : alookup attrs "align" = some al) :
    visit_Class attrs
      = .ok (.Struct nm al (pySplitWS (attrsGetD attrs "members" "")) ctx
          ((pySplitWS bs).map (fun b => pyReplace b "protected:" ""))
          (attrsGet? attrs "size"))
    ∧ visit_Struct attrs
      = .ok (.Struct nm al (pySplitWS (attrsGetD attrs "members" "")) ctx
          (pySplitWS bs) (attrsGet? attrs "size"))
    ∧ visit_Union attrs
      = .ok (.Union nm al (pySplitWS (attrsGetD attrs "members" "")) ctx
          (pySplitWS bs) (attrsGet? attrs "size")) := by
  refine ⟨?_, ?_, ?_⟩ <;>
    simp [visit_Class, visit_Struct, visit_Union, attrsGet?, attrsGetD,
          attrsReq, hn, hb, hc, ha, except_bind_ok]

def c3attrs : Attrs :=
  [("name", "S"), ("context", "f0"), ("align", "8"),
   ("bases", "protected:_12")]

def c3reg : Registry :=
  [ (.kstr "_12", { node := .Struct "Base" "8" [] "f0" [] none,
                    location := none }),
    (.kstr "f0", { node := .File "a.h", location := none }) ]

/-- C3 counterexample: a `Struct` element whose base id carries the
"protected:" marker keeps the marker — the built node's base list is
`["protected:_12"]`, and in a registry containing the node "_12" the
prefixed id does not resolve while the unprefixed one does: the prefix is
NOT stripped before id resolution for Struct (or Union) elements. -/
theorem C3_counterexample :
    visit_Struct c3attrs
      = .ok (.Struct "S" "8" [] "f0" ["protected:_12"] none)
    ∧ alookup c3reg (.kstr "protected:_12") = none
    ∧ (alookup c3reg (.kstr "_12")).isSome = true := by
  refine ⟨by decide, rfl, rfl⟩

def c3cattrs : Attrs :=
  [("name", "C"), ("context", "f0"), ("align", "8"),
   ("bases", "protected:_12 _13")]

/-- C3 witness: the amended claim at concrete attributes — the Class
handler strips "protected:" from the prefixed base while Struct and Union
keep it. -/
theorem C3_only_class_strips_protected_witness :
    visit_Class c3cattrs = .ok (.Struct "C" "8" [] "f0" ["_12", "_13"] none)
    ∧ visit_Struct c3cattrs
        = .ok (.Struct "C" "8" [] "f0" ["protected:_12", "_13"] none) := by
  have h := C3_only_class_strips_protected c3cattrs "C"
    "protected:_12 _13" "f0" "8" rfl rfl rfl rfl
  constructor
  · rw [h.1]; decide
  · rw [h.2.1]; decide

/-- C9: `visit_ArrayType` normalizes a `max` attribute equal to the
all-ones 64-bit sentinel `"ffffffffffffffff"` or to the empty string to
the integer −1, and parses any other numeric `max` string to its integer
value after stripping trailing 'l'/'u' size-suffix letters. -/
theorem C9_arraytype_max_normalization (attrs : Attrs)
    (typ mn mx : String) (mnv : Int)
    (ht : alookup attrs "type" = some typ)
    (hmn : alookup attrs "min" = some mn)
    (hmx : alookup attrs "max" = some mx)
    (hmnv : pyInt (pyRstripLU mn) = .ok mnv) :
    ((mx = "ffffffffffffffff" ∨ mx = "") →
        visit_ArrayType attrs = .ok (.ArrayType typ mnv (-1)))
    ∧ (∀ mxv : Int, mx ≠ "ffffffffffffffff" → mx ≠ "" →
        pyInt (pyRstripLU mx) = .ok mxv →
        visit_ArrayType attrs = .ok (.ArrayType typ mnv mxv)) := by
  constructor
  · rintro (rfl | rfl) <;>
      simp [visit_ArrayType, attrsReq, ht, hmn, hmx, hmnv, except_bind_ok,
            show pyInt (pyRstripLU "-1") = .ok (-1) by decide]
  · intro mxv h1 h2 h3
    simp [visit_ArrayType, attrsReq, ht, hmn, hmx, h1, h2, h3, hmnv,
          except_bind_ok]

/-- C9 witness: the sentinel, the empty string, and a suffixed numeric
string, each on concrete attributes. -/
theorem C9_arraytype_max_normalization_witness :
    visit_ArrayType [("type", "t1"), ("min", "0"),
        ("max", "ffffffffffffffff")]
      = .ok (.ArrayType "t1" 0 (-1))
    ∧ visit_ArrayType [("type", "t1"), ("min", "0"), ("max", "")]
        = .ok (.ArrayType "t1" 0 (-1))
    ∧ visit_ArrayType [("type", "t1"), ("min", "0"), ("max", "20ull")]
        = .ok (.ArrayType "t1" 0 20) := by
  refine ⟨?_, ?_, ?_⟩
  · exact (C9_arraytype_max_normalization
      [("type", "t1"), ("min", "0"), ("max", "ffffffffffffffff")]
      "t1" "0" "ffffffffffffffff" 0
      rfl rfl rfl (by decide)).1 (Or.inl rfl)
  · exact (C9_arraytype_max_normalization
      [("type", "t1"), ("min", "0"), ("max", "")] "t1" "0" "" 0
      rfl rfl rfl (by decide)).1 (Or.inr rfl)
  · exact (C9_arraytype_max_normalization
      [("type", "t1"), ("min", "0"), ("max", "20ull")] "t1" "0" "20ull" 0
      rfl rfl rfl (by decide)).2 20 (by decide) (by decide) (by decide)

/-- The pure content of the `aliases` dict built by the first loop of
`get_aliases` (dict semantics: a later duplicate name replaces the
earlier alias). -/
def parsedAliasesFrom (acc : List (String × String)) :
    List String → List (String × String)
  | [] => acc
  | l :: rest =>
      match aliasLineParse? l with
      | some (n, v) => parsedAliasesFrom (aput acc n v) rest
      | none => parsedAliasesFrom acc rest

def parsedAliases (lines : List String) : List (String × String) :=
  parsedAliasesFrom [] lines

/-- All lines well-formed: the alias parsing loop succeeds and produces
exactly the `aliases` dict content. -/
theorem aliasFold_ok (lines : List String)
    (hwf : ∀ l ∈ lines, (aliasLineParse? l).isSome = true) :
    ∀ (all : Registry) (acc : List (String × String)),
      ∃ reg, aliasFold (all, acc) lines
        = .ok (reg, parsedAliasesFrom acc lines) := by
  induction lines with
  | nil => exact fun all acc => ⟨all, rfl⟩
  | cons l rest ih =>
      intro all acc
      obtain ⟨⟨n, v⟩, hl⟩ := Option.isSome_iff_exists.mp (hwf l (by simp))
      obtain ⟨reg, hrest⟩ :=
        ih (fun x hx => hwf x (List.mem_cons_of_mem _ hx))
          (aput all (.kstr n) { node := .Alias n v none, location := none })
          (aput acc n v)
      exact ⟨reg, by simp [aliasFold, hl, parsedAliasesFrom, hrest]⟩

/-- C7: for every well-formed alias dump, `get_aliases` succeeds (no
error even when values resolve nowhere) and resolves each alias by exactly
the one-hop rule `aliasOneHop`: the value text is looked up first among
the already-resolved named declarations (`ns`), then among the aliases
just parsed — an alias value naming another alias resolves to that Alias
node itself, never chased further — and a value matching neither source
leaves the target null. -/
theorem C7_alias_resolution_one_hop (all : Registry)
    (ns : List (String × Key)) (chunks : List CData) (t : String)
    (hj : joinCData chunks = .ok t)
    (hwf : ∀ l ∈ pySplitlines t, (aliasLineParse? l).isSome = true) :
    ∃ reg, get_aliases all (some chunks) ns
        = .ok (reg, (parsedAliases (pySplitlines t)).map (fun p =>
            (p.1, CNode.Alias p.1 p.2
              (aliasOneHop ns (parsedAliases (pySplitlines t)) p.2))))
      ∧ (∀ v, alookup ns v = none →
          alookup (parsedAliases (pySplitlines t)) v = none →
          aliasOneHop ns (parsedAliases (pySplitlines t)) v = none)
      ∧ (∀ v, alookup ns v = none →
          (alookup (parsedAliases (pySplitlines t)) v).isSome = true →
          aliasOneHop ns (parsedAliases (pySplitlines t)) v
            = some (.aliasNode v)) := by
  obtain ⟨reg0, hfold⟩ := aliasFold_ok (pySplitlines t) hwf all []
  refine ⟨((parsedAliases (pySplitlines t)).map (fun p =>
      (p.1, CNode.Alias p.1 p.2
        (aliasOneHop ns (parsedAliases (pySplitlines t)) p.2)))).foldl
      (fun c p => aput c (.kstr p.1) { node := p.2, location := none })
      reg0, ?_, ?_, ?_⟩
  · simp [get_aliases, hj, except_bind_ok, hfold, parsedAliases]
  · intro v h1 h2
    simp [aliasOneHop, h1, h2]
  · intro v h1 h2
    obtain ⟨w, hw⟩ := Option.isSome_iff_exists.mp h2
    simp [aliasOneHop, h1, hw]

/-- C7 witness: Scenario D — the single alias line `BAR 5`, whose value
"5" matches no declared name and no other alias, yields
`Alias(name="BAR", value="5", target=null)` without any error. -/
theorem C7_alias_resolution_one_hop_witness :
    (∃ reg, get_aliases [] (some [CData.s "BAR 5"]) []
        = .ok (reg, (parsedAliases (pySplitlines "BAR 5")).map (fun p =>
            (p.1, CNode.Alias p.1 p.2
              (aliasOneHop [] (parsedAliases (pySplitlines "BAR 5")) p.2))))
      ∧ (∀ v, alookup ([] : List (String × Key)) v = none →
          alookup (parsedAliases (pySplitlines "BAR 5")) v = none →
          aliasOneHop [] (parsedAliases (pySplitlines "BAR 5")) v = none)
      ∧ (∀ v, alookup ([] : List (String × Key)) v = none →
          (alookup (parsedAliases (pySplitlines "BAR 5")) v).isSome = true →
          aliasOneHop [] (parsedAliases (pySplitlines "BAR 5")) v
            = some (.aliasNode v)))
    ∧ (parsedAliases (pySplitlines "BAR 5")).map (fun p =>
        (p.1, CNode.Alias p.1 p.2
          (aliasOneHop [] (parsedAliases (pySplitlines "BAR 5")) p.2)))
      = [("BAR", CNode.Alias "BAR" "5" none)] :=
  ⟨C7_alias_resolution_one_hop [] [] [CData.s "BAR 5"] "BAR 5" (by decide)
    (by decide), by decide⟩

/-- A malformed line anywhere in the macro section aborts the whole
extraction with `ValueError`. -/
theorem macroFold_err (lines : List String) :
    ∀ cur : Registry, (∃ l ∈ lines, macroLineParse? l = none) →
    ∃ m, macroFold cur lines = .error (.valueError m) := by
  induction lines with
  | nil => intro _ h; simp at h
  | cons l rest ih =>
      intro cur hbad
      cases hl : macroLineParse? l with
      | none => exact ⟨"unpack", by simp [macroFold, hl]⟩
      | some p =>
          obtain ⟨x, hx, hxbad⟩ := hbad
          rcases List.mem_cons.mp hx with rfl | hx'
          · rw [hl] at hxbad; cases hxbad
          · obtain ⟨m, hm⟩ := ih (aput cur (Key.kstr p.1)
              { node := CNode.Macro p.1 ("(" ++ p.2.1) p.2.2,
                location := none }) ⟨x, hx', hxbad⟩
            exact ⟨m, by simp [macroFold, hl, hm]⟩

/-- A malformed line anywhere in the alias section aborts the whole
extraction with `ValueError`. -/
theorem aliasFold_err (lines : List String) :
    ∀ acc : Registry × List (String × String),
      (∃ l ∈ lines, aliasLineParse? l = none) →
    ∃ m, aliasFold acc lines = .error (.valueError m) := by
  induction lines with
  | nil => intro _ h; simp at h
  | cons l rest ih =>
      intro acc hbad
      cases hl : aliasLineParse? l with
      | none => exact ⟨"unpack", by simp [aliasFold, hl]⟩
      | some p =>
          obtain ⟨x, hx, hxbad⟩ := hbad
          rcases List.mem_cons.mp hx with rfl | hx'
          · rw [hl] at hxbad; cases hxbad
          · obtain ⟨m, hm⟩ := ih (aput acc.1 (Key.kstr p.1)
              { node := CNode.Alias p.1 p.2 none, location := none },
              aput acc.2 p.1 p.2) ⟨x, hx', hxbad⟩
            exact ⟨m, by simp [aliasFold, hl, hm]⟩

/-- C8 (amended): a macro or alias dump line that cannot be split into a
name part and a body/value part is *not* skipped: the tuple unpacking
raises `ValueError` and the whole section extraction aborts at that line
(there is no try/except around either loop). -/
theorem C8_malformed_line_raises (all : Registry)
    (ns : List (String × Key)) (chunksM chunksA : List CData)
    (tM tA : String)
    (hjM : joinCData chunksM = .ok tM) (hjA : joinCData chunksA = .ok tA)
    (lm : String) (hm : lm ∈ pySplitlines tM)
    (hm2 : macroLineParse? lm = none)
    (la : String) (ha : la ∈ pySplitlines tA)
    (ha2 : aliasLineParse? la = none) :
    (∃ m, get_macros all (some chunksM) = .error (.valueError m))
    ∧ (∃ m, get_aliases all (some chunksA) ns
        = .error (.valueError m)) := by
  constructor
  · obtain ⟨m, hmf⟩ := macroFold_err (pySplitlines tM) all ⟨lm, hm, hm2⟩
    exact ⟨m, by simp [get_macros, hjM, except_bind_ok, hmf]⟩
  · obtain ⟨m, haf⟩ := aliasFold_err (pySplitlines tA) (all, []) ⟨la, ha, ha2⟩
    exact ⟨m, by simp [get_aliases, hjA, except_bind_ok, haf,
                       except_bind_err]⟩

/-- C8 counterexample: the single-token line "FOO" aborts the macro
section with `ValueError` even though a well-formed line "BAR(x) y"
follows (it is never processed), and the single-token alias line "BAZ"
aborts the alias section likewise — the extractor does not skip malformed
lines and does not continue the section, refuting the claim. -/
theorem C8_counterexample :
    get_macros [] (some [CData.s "FOO\nBAR(x) y"])
      = .error (.valueError "unpack")
    ∧ get_aliases [] (some [CData.s "BAZ"]) []
      = .error (.valueError "unpack") := by
  exact ⟨by decide, by decide⟩

/-- C8 witness: the amended claim at the same concrete sections. -/
theorem C8_malformed_line_raises_witness :
    (∃ m, get_macros [] (some [CData.s "FOO\nBAR(x) y"])
        = .error (.valueError m))
    ∧ (∃ m, get_aliases [] (some [CData.s "BAZ"]) []
        = .error (.valueError m)) :=
  C8_malformed_line_raises [] [] [CData.s "FOO\nBAR(x) y"] [CData.s "BAZ"]
    "FOO\nBAR(x) y" "BAZ" (by decide) (by decide) "FOO" (by decide)
    (by decide) "BAZ" (by decide) (by decide)

/-- `get_result` with a macro dump present and no alias dump: like
`get_result_ok`, given that `get_macros` succeeded. -/
theorem get_result_ok_after_macros {st : PState} {order allM : Registry}
    (hmac : get_macros st.all (alookup st.cpp_data "functions") = .ok allM)
    (halias : alookup st.cpp_data "aliases" = none)
    (hnd : (order.map Prod.fst).Nodup)
    (hok : registryFixupOk order = true) :
    ∃ reg, get_result st order = .ok (interestingNodes order, reg)
      ∧ stripLoc reg = stripLoc order := by
  obtain ⟨cur', hloop, hstrip⟩ := fixupLoop_ok hnd hok
  refine ⟨cur', ?_, hstrip⟩
  have hres : (assemble cur').1 = interestingNodes order := by
    rw [assemble_fst, interestingNodes_congr hstrip]
  simp [get_result, hmac, halias, hloop, removeLoop, get_aliases,
        except_bind_ok, hres]

/-- C10: `get_macros` registers each macro in the id registry under its
*textual name*, before the fixup pass runs; if that name coincides with an
existing registry id, the original node is silently replaced, and a
reference field carrying that id subsequently dereferences to the Macro
node instead of the original element's node.  (`get_aliases` stores
aliases under their names in the same registry — `aput all (kstr name)` in
`aliasFold` — after the result is built.) -/
theorem C10_macro_name_shadows_id (st : PState) (order : Registry)
    (chunks : List CData) (t line mname margs body : String)
    (hj : joinCData chunks = .ok t)
    (hl : pySplitlines t = [line])
    (hp : macroLineParse? line = some (mname, margs, body))
    (hcpp : st.cpp_data = [("functions", chunks)])
    (orig : RNode) (hmem : (Key.kstr mname, orig) ∈ st.all)
    (horig : orig.node ≠ .Macro mname ("(" ++ margs) body)
    (hperm : order.Perm (aput st.all (.kstr mname)
        { node := .Macro mname ("(" ++ margs) body, location := none }))
    (hnd : (order.map Prod.fst).Nodup)
    (hok : registryFixupOk order = true)
    (ky : Key) (rny : RNode) (hy : (ky, rny) ∈ order)
    (hyref : mname ∈ (fixupRefIds rny.node).getD []) :
    ∃ reg, get_result st order = .ok (interestingNodes order, reg)
      ∧ (alookup reg (.kstr mname)).map RNode.node
          = some (.Macro mname ("(" ++ margs) body)
      ∧ (alookup reg (.kstr mname)).map RNode.node ≠ some orig.node := by
  have hfun : alookup st.cpp_data "functions" = some chunks := by
    rw [hcpp]; simp [alookup]
  have halias : alookup st.cpp_data "aliases" = none := by
    rw [hcpp]; simp [alookup]
  have hmac : get_macros st.all (alookup st.cpp_data "functions")
      = .ok (aput st.all (.kstr mname)
          { node := .Macro mname ("(" ++ margs) body, location := none }) := by
    rw [hfun]
    simp [get_macros, hj, except_bind_ok, hl, macroFold, hp]
  obtain ⟨reg, hres, hstrip⟩ := get_result_ok_after_macros hmac halias hnd hok
  have hmRN : (Key.kstr mname,
      ({ node := .Macro mname ("(" ++ margs) body,
         location := none } : RNode)) ∈ order :=
    hperm.mem_iff.mpr (aput_mem_self _ _ _)
  have h2 : (alookup reg (.kstr mname)).map RNode.node
      = some (.Macro mname ("(" ++ margs) body) := by
    rw [alookup_node_congr hstrip, alookup_eq_some_of_mem hnd hmRN]
    rfl
  refine ⟨reg, hres, h2, ?_⟩
  rw [h2]
  intro heq
  exact horig (Option.some.inj heq).symm

def c10all : Registry :=
  [ (.kstr "i1", { node := .FundamentalType "int" "32" "32",
                   location := none }),
    (.kstr "v1", { node := .Variable "x" "i1" "f0" none,
                   location := none }),
    (.kstr "f0", { node := .File "a.h", location := none }) ]

/-- A parser state whose macro dump defines a macro literally named `i1`,
the id under which a FundamentalType is registered. -/
def c10state : PState :=
  { initPState with all := c10all,
                    cpp_data := [("functions", [CData.s "i1(a) 5"])] }

/-- The registry contents after `get_macros` replaced the entry "i1". -/
def c10order : Registry :=
  [ (.kstr "i1", { node := .Macro "i1" "(a)" "5", location := none }),
    (.kstr "v1", { node := .Variable "x" "i1" "f0" none,
                   location := none }),
    (.kstr "f0", { node := .File "a.h", location := none }) ]

/-- C10 witness: the macro named "i1" replaces the FundamentalType
registered under id "i1", and the Variable's type reference "i1" now
dereferences to the Macro node. -/
theorem C10_macro_name_shadows_id_witness :
    ∃ reg, get_result c10state c10order
        = .ok (interestingNodes c10order, reg)
      ∧ (alookup reg (.kstr "i1")).map RNode.node
          = some (.Macro "i1" "(a)" "5")
      ∧ (alookup reg (.kstr "i1")).map RNode.node
          ≠ some (CNode.FundamentalType "int" "32" "32") :=
  C10_macro_name_shadows_id c10state c10order [CData.s "i1(a) 5"]
    "i1(a) 5" "i1(a) 5" "i1" "a)" "5" (by decide) (by decide) (by decide)
    rfl { node := .FundamentalType "int" "32" "32", location := none }
    (by decide) (by decide) (by decide) (by decide) (by decide)
    (.kstr "v1") { node := .Variable "x" "i1" "f0" none, location := none }
    (by decide) (by decide)

end Cwrap
